import Mathlib

/-!
A shallow embedding of the logging library in `src/index.js` (second,
current revision of the file) together with theorems about its dispatch,
formatting, error-recovery and lifecycle behaviour.

Modelling conventions:
* JavaScript numbers that the code only ever uses as non-negative small
  integers (ranks, lengths, timestamps, sink identifiers) are `Nat`;
  signed intermediate arithmetic (the `-1` in the display-length
  computation, colour components) is `Int`.
* External collaborators (the `chalk` styling library, `util.inspect`,
  `simple-safe-stringify`, `Date.prototype.toISOString`) are opaque pure
  functions collected in an `Ext` record; the spec treats them as external
  interfaces.  Everything computed by this repository itself is embedded.
* Fallible code returns `Except Err`; `Err` mirrors the JS `Error`,
  `TypeError` and `RangeError` classes with their message strings.
* I/O outcomes (whether a write to a sink succeeds, and how long it takes
  to settle) come from a deterministic oracle
  `world : Nat → Option String → Nat × Option Err` keyed by sink identity
  and written content, returning a settle duration and an optional failure.
* Cooperative single-threaded concurrency is modelled by deterministic
  settle times: every per-target operation of one dispatch is initiated at
  the dispatch's captured timestamp and settles after its oracle duration;
  `Promise.all` resolves at the maximum settle time and rejects at the
  earliest rejection time.
-/

namespace EasyNodeLogging

/-- Error values: mirrors the JS `Error` / `TypeError` / `RangeError`
classes thrown by the source, carrying the message string. -/
inductive Err where
  | error (msg : String)
  | typeError (msg : String)
  | rangeError (msg : String)
  deriving DecidableEq, Repr

/-- A JavaScript primitive value, used for option fields whose truthiness
the source inspects (`logLevel`, `style`, `errorPolicy`, `https`). -/
inductive JsVal where
  | vundef
  | vnull
  | vstr (s : String)
  | vnum (n : Int)
  | vbool (b : Bool)
  deriving DecidableEq, Repr

/-- JavaScript truthiness of a primitive value. -/
def JsVal.truthy : JsVal → Bool
  | .vundef => false
  | .vnull => false
  | .vstr s => s ≠ ""
  | .vnum n => n ≠ 0
  | .vbool b => b

/-- Rendering of a primitive value inside a template string, as in
the source's thrown error messages. -/
def JsVal.display : JsVal → String
  | .vundef => "undefined"
  | .vnull => "null"
  | .vstr s => s
  | .vnum n => toString n
  | .vbool true => "true"
  | .vbool false => "false"

/-- The `levels` object (source lines 812-819): numeric rank to level
name.  A lookup outside 1..6 is `undefined` in JS, hence `Option`. -/
def levels : Nat → Option String
  | 1 => some "FATAL"
  | 2 => some "ERROR"
  | 3 => some "WARN"
  | 4 => some "INFO"
  | 5 => some "DEBUG"
  | 6 => some "TRACE"
  | _ => none

/-- The `levelNums` object (source lines 821-828): property lookup with an
arbitrary JS key; any key other than the six level-name strings yields
`undefined`. -/
def levelNums : JsVal → Option Nat
  | .vstr "FATAL" => some 1
  | .vstr "ERROR" => some 2
  | .vstr "WARN" => some 3
  | .vstr "INFO" => some 4
  | .vstr "DEBUG" => some 5
  | .vstr "TRACE" => some 6
  | _ => none

/-- `logLevelNum` (source lines 774-778): throws a `TypeError` only when
`level` is truthy and not one of the six names; otherwise falls through
to `levelNums[level] || levelNums.TRACE`. -/
def logLevelNum (level : JsVal) : Except Err Nat :=
  if level.truthy ∧ levelNums level = none then
    Except.error (Err.typeError
      ("log level must be one of TRACE, DEBUG, INFO, WARN, ERROR, FATAL. Received "
        ++ level.display ++ " instead"))
  else
    Except.ok (match levelNums level with
      | some n => n
      | none => 6)

/-- Render style (`"TEXT" | "JSON"` in the source). -/
inductive Fmt where
  | JSON
  | TEXT
  deriving DecidableEq, Repr

/-- `logStyle` (source lines 780-792): switch over the raw `style` value;
`undefined` and `null` default to `TEXT`, any other non-name throws. -/
def logStyle (style : JsVal) : Except Err Fmt :=
  match style with
  | .vstr "JSON" => Except.ok Fmt.JSON
  | .vstr "TEXT" => Except.ok Fmt.TEXT
  | .vundef => Except.ok Fmt.TEXT
  | .vnull => Except.ok Fmt.TEXT
  | _ => Except.error (Err.typeError "log style must be one of JSON, TEXT")

/-- Error policy values. -/
inductive EP where
  | THROW
  | LOG
  | IGNORE
  deriving DecidableEq, Repr

/-- `errorPolicy` (source lines 794-808): switch over the raw value;
`undefined` and `null` default to `LOG`, any other non-name throws. -/
def errorPolicy (policy : JsVal) : Except Err EP :=
  match policy with
  | .vstr "THROW" => Except.ok EP.THROW
  | .vstr "LOG" => Except.ok EP.LOG
  | .vstr "IGNORE" => Except.ok EP.IGNORE
  | .vundef => Except.ok EP.LOG
  | .vnull => Except.ok EP.LOG
  | _ => Except.error (Err.typeError "error policy must be one of THROW, LOG or IGNORE")

/-- The shared option fields of a raw target descriptor (§6 of the spec).
The three pure flags are modelled as booleans (the source coerces them
with `|| false`); `logLevel`, `style` and `errorPolicy` keep their raw JS
value because the source inspects truthiness or exact identity. -/
structure RawCommon where
  logLevel : JsVal
  color : Bool
  uniformLength : Bool
  style : JsVal
  fullTimestamps : Bool
  errorPolicy : JsVal
  deriving DecidableEq, Repr

/-- The result record of `baseTargetOptions` (source lines 763-772). -/
structure BaseOpts where
  level : Nat
  color : Bool
  uniform : Bool
  format : Fmt
  fullTimestamps : Bool
  errorPolicy : EP
  deriving DecidableEq, Repr

/-- `baseTargetOptions` (source lines 763-772): evaluates the object
literal field by field; `logLevelNum` is evaluated first, then `logStyle`,
then `errorPolicy`, so their exceptions surface in that order. -/
def baseTargetOptions (t : RawCommon) : Except Err BaseOpts := do
  let lv ← logLevelNum t.logLevel
  let st ← logStyle t.style
  let ep ← errorPolicy t.errorPolicy
  Except.ok
    { level := lv
      color := t.color
      uniform := t.uniformLength
      format := st
      fullTimestamps := t.fullTimestamps
      errorPolicy := ep }

/-- A log-message value.  The library passes caller messages through
unchanged and itself only ever constructs the string and diagnostic-record
shapes below (source line 544), so the embedding closes the value universe
over exactly these: plain strings, and the recovery diagnostic record
`\x7btimestamp, level, messages, error\x7d`. -/
inductive Msg where
  | str (s : String)
  | diag (timestamp : Nat) (levelName : Option String) (messages : List Msg) (error : Err)

/-- External collaborators consumed by the formatter (§6 of the spec):
`util.inspect`, `simple-safe-stringify` applied to the JSON record,
`Date.prototype.toISOString`, and the `chalk` styling functions, all
modelled as opaque pure functions. -/
structure Ext where
  inspectVal : Msg → Bool → String
  stringifyRecord : Nat → Option String → String → Option String → List Msg → String
  toISO : Nat → String
  chalkHex : String → String → String
  chalkYellow : String → String
  chalkYellowBright : String → String
  chalkBlack : String → String
  chalkBgRedBright : String → String
  chalkHexBgRedBright : String → String → String

/-- JS `String.prototype.padEnd(n)` with spaces. -/
def padEnd (s : String) (n : Nat) : String :=
  s ++ String.mk (List.replicate (n - s.length) ' ')

/-- JS `String.prototype.padStart(n, "0")`. -/
def padStart0 (s : String) (n : Nat) : String :=
  String.mk (List.replicate (n - s.length) '0') ++ s

/-- `formatTime` (source lines 622-629): full ISO-8601 via the external
`Date.prototype.toISOString`, else `HH:MM:SS.mmm` from the UTC epoch
milliseconds. -/
def formatTime (ext : Ext) (ms : Nat) (full : Bool) : String :=
  if full then ext.toISO ms
  else
    padStart0 (toString (ms / 3600000 % 24)) 2 ++ ":"
      ++ padStart0 (toString (ms / 60000 % 60)) 2 ++ ":"
      ++ padStart0 (toString (ms / 1000 % 60)) 2 ++ "."
      ++ padStart0 (toString (ms % 1000)) 3

/-- The logger's resolved source-colour style function: `chalk.hex(h)`
when a colour hex string was resolved, else the identity `noColor`
(source line 455). -/
def sourceStyle (ext : Ext) (sourceColor : Option String) : String → String :=
  fun s => match sourceColor with
    | some h => ext.chalkHex h s
    | none => s

/-- The bracketed-and-styled fragment pattern
`color ? B("[") + T(inner) + B("]") : "[" + inner + "]"` recurring in
every arm of the `format` switch. -/
def brk (color : Bool) (bStyle tStyle : String → String) (inner : String) : String :=
  if color then bStyle "[" ++ tStyle inner ++ bStyle "]" else "[" ++ inner ++ "]"

/-- The joined message body:
`messages.map(v => typeof v === "string" ? v : inspect(v, false, null, color)).join(" ")`. -/
def joinedMessages (ext : Ext) (messages : List Msg) (color : Bool) : String :=
  String.intercalate " " (messages.map fun v => match v with
    | Msg.str s => s
    | _ => ext.inspectVal v color)

/-- The multi-line re-prefixing `pfx + content.split("\n").join("\n" + pfx)`. -/
def withPfx (pfx content : String) : String :=
  pfx ++ String.intercalate ("\n" ++ pfx) (content.splitOn "\n")

/-- `format` (source lines 564-620).  The JSON branch hands the record to
the external stringifier; the TEXT branch switches over the rank.  The
source's local variable `format` (the style) is renamed `fmt` here since
it would shadow the function.  Returns `none` for a rank outside 1..6
(the source leaves `msg = null` there; no call site does this). -/
def format (ext : Ext) (messages : List Msg) (level : Nat) (component : String)
    (source : Option String) (sourceColor : Option String) (uniform : Bool)
    (maxSourceLength : Nat) (fmt : Fmt) (color : Bool) (timestamp : Nat)
    (fullTimestamps : Bool) : Option String :=
  match fmt with
  | Fmt.JSON =>
    some (ext.stringifyRecord timestamp (levels level) component source messages)
  | Fmt.TEXT =>
    let styledSource := (if color then sourceStyle ext sourceColor else id)
      (padEnd (component ++ (match source with
        | some s => if s = "" then "" else "/" ++ s
        | none => "")) (uniform.toNat * maxSourceLength))
    let maxCategoryLength : Nat := 5
    match level with
    | 6 =>
      let pfx := "[" ++ formatTime ext timestamp fullTimestamps ++ "] "
        ++ brk color (ext.chalkHex "#5F5F5F") (ext.chalkHex "#808080") "TRACE" ++ " "
        ++ padEnd "" ((maxCategoryLength - "TRACE".length) * uniform.toNat)
        ++ brk color (ext.chalkHex "#5F5F5F") (ext.chalkHex "#808080") styledSource ++ " "
      some (withPfx pfx ((if color then ext.chalkHex "#808080" else id)
        (joinedMessages ext messages color)))
    | 5 =>
      let pfx := "[" ++ formatTime ext timestamp fullTimestamps ++ "] "
        ++ brk color (ext.chalkHex "#787878") (ext.chalkHex "#9F9F9F") "DEBUG" ++ " "
        ++ padEnd "" ((maxCategoryLength - "DEBUG".length) * uniform.toNat)
        ++ brk color (ext.chalkHex "#787878") (ext.chalkHex "#9F9F9F") styledSource ++ " "
      some (withPfx pfx ((if color then ext.chalkHex "#9F9F9F" else id)
        (joinedMessages ext messages color)))
    | 4 =>
      let pfx := "[" ++ formatTime ext timestamp fullTimestamps ++ "] "
        ++ brk color (ext.chalkHex "#0B8E82") (ext.chalkHex "#26E2D0") "INFO" ++ " "
        ++ padEnd "" ((maxCategoryLength - "INFO".length) * uniform.toNat)
        ++ "[" ++ styledSource ++ "] "
      some (withPfx pfx (joinedMessages ext messages color))
    | 3 =>
      let pfx := "[" ++ formatTime ext timestamp fullTimestamps ++ "] "
        ++ brk color ext.chalkYellow ext.chalkYellowBright "WARN" ++ " "
        ++ padEnd "" ((maxCategoryLength - "WARN".length) * uniform.toNat)
        ++ brk color ext.chalkYellow ext.chalkYellowBright styledSource ++ " "
      some (withPfx pfx ((if color then ext.chalkYellowBright else id)
        (joinedMessages ext messages color)))
    | 2 =>
      let pfx := "[" ++ formatTime ext timestamp fullTimestamps ++ "] "
        ++ brk color (ext.chalkHex "#9F0000") (ext.chalkHex "#FF0000") "ERROR" ++ " "
        ++ padEnd "" ((maxCategoryLength - "ERROR".length) * uniform.toNat)
        ++ brk color (ext.chalkHex "#9F0000") (ext.chalkHex "#FF0000") styledSource ++ " "
      some (withPfx pfx ((if color then ext.chalkHex "#FF0000" else id)
        (joinedMessages ext messages color)))
    | 1 =>
      let pfx := "[" ++ formatTime ext timestamp fullTimestamps ++ "] "
        ++ (if color then ext.chalkBgRedBright else id)
          (brk color ext.chalkBlack (ext.chalkHex "#0F0F0F") "FATAL" ++ " "
            ++ padEnd "" ((maxCategoryLength - "FATAL".length) * uniform.toNat)
            ++ brk color ext.chalkBlack (ext.chalkHex "#0F0F0F") styledSource ++ " ")
      some (withPfx pfx ((if color then ext.chalkHexBgRedBright "#0F0F0F" else id)
        (joinedMessages ext messages color)))
    | _ => none

/-- The internal target kinds after normalization
(`"STREAM" | "FUNCTION" | "HTTP" | "HTTPS"`). -/
inductive TType where
  | STREAM
  | FUNCTION
  | HTTP
  | HTTPS
  deriving DecidableEq, Repr

/-- A parsed target record as pushed by `createLoggerFactory`
(source lines 686-748).  The underlying destination (stream, callable,
or URL endpoint) is identified by an opaque `sinkId` consumed by the
world oracle.  The `private` field is spelled `priv` because `private`
is a Lean keyword; targets whose literal lacks the field (POST, STDOUT,
FUNCTION) get `false` (JS `undefined === true` is false everywhere the
field is read). -/
structure Target where
  type : TType
  sinkId : Nat
  priv : Bool
  level : Nat
  color : Bool
  uniform : Bool
  format : Fmt
  fullTimestamps : Bool
  errorPolicy : EP
  deriving DecidableEq, Repr

/-- The delivery-outcome oracle: for a sink identity and a written
content, the settle duration of the operation and `none` on success or
the failure value (`some e`) on failure.  This stands for the opaque
`write(bytes) -> ack|error` capability of §6 of the spec (stream write
acknowledgement, callback result, HTTP response). -/
abbrev World := Nat → Option String → Nat × Option Err

/-- The per-logger data held by the `Logger` class (source lines 474-480):
component name, optional sub-source name and the resolved colour,
`some hex` standing for `chalk.hex(hex)` and `none` for `noColor`. -/
structure LoggerData where
  component : String
  source : Option String
  colorHex : Option String
  deriving DecidableEq, Repr

/-- The settled result of one per-target slot of a dispatch
(one element of the array handed to `Promise.all` in `_log`):
* `success`: the delivery succeeded, slot resolved at `time`;
* `thrownErr`: delivery failed under policy `THROW`, slot rejected;
* `swallowed`: delivery failed under policy `IGNORE`, failure swallowed;
* `muted`: delivery failed under policy `LOG` but the factory was
  destroyed, so the recovery dispatch was skipped;
* `fuelOut`: marker emitted in place of a recovery dispatch when the
  modelling fuel is exhausted (shown to be unreachable for fuel ≥ 2);
* `recovered`: delivery failed under policy `LOG` and the recursive
  recovery dispatch produced the nested slots `sub`. -/
inductive SlotResult where
  | success (idx sinkId : Nat) (content : Option String) (time : Nat)
  | thrownErr (idx sinkId : Nat) (content : Option String) (e : Err) (time : Nat)
  | swallowed (idx sinkId : Nat) (content : Option String) (e : Err) (time : Nat)
  | muted (idx sinkId : Nat) (content : Option String) (e : Err) (time : Nat)
  | fuelOut (idx sinkId : Nat) (content : Option String) (e : Err) (time : Nat)
  | recovered (idx sinkId : Nat) (content : Option String) (e : Err)
      (sub : List SlotResult) (time : Nat)

/-- The target-list index a slot belongs to. -/
def SlotResult.idx : SlotResult → Nat
  | .success i _ _ _ => i
  | .thrownErr i _ _ _ _ => i
  | .swallowed i _ _ _ _ => i
  | .muted i _ _ _ _ => i
  | .fuelOut i _ _ _ _ => i
  | .recovered i _ _ _ _ _ => i

/-- The sink a slot wrote (or attempted to write) to. -/
def SlotResult.sink : SlotResult → Nat
  | .success _ s _ _ => s
  | .thrownErr _ s _ _ _ => s
  | .swallowed _ s _ _ _ => s
  | .muted _ s _ _ _ => s
  | .fuelOut _ s _ _ _ => s
  | .recovered _ s _ _ _ _ => s

/-- The content a slot delivered. -/
def SlotResult.content : SlotResult → Option String
  | .success _ _ c _ => c
  | .thrownErr _ _ c _ _ => c
  | .swallowed _ _ c _ _ => c
  | .muted _ _ c _ _ => c
  | .fuelOut _ _ c _ _ => c
  | .recovered _ _ c _ _ _ => c

/-- The absolute time at which a slot settled. -/
def SlotResult.time : SlotResult → Nat
  | .success _ _ _ t => t
  | .thrownErr _ _ _ _ t => t
  | .swallowed _ _ _ _ t => t
  | .muted _ _ _ _ t => t
  | .fuelOut _ _ _ _ t => t
  | .recovered _ _ _ _ _ t => t

/-- The time at which `Promise.all` over the given slots resolves when
none of them rejects: the maximum of `t0` (its immediate-resolution time
if the list is empty) and every slot's settle time. -/
def settleAll (t0 : Nat) (slots : List SlotResult) : Nat :=
  slots.foldl (fun a s => max a s.time) t0

/-- The processing of one `(i, v)` entry of `targets.map((v, i) => ...)`
inside `_log` (source lines 522-548): skip when `v.level < level`, else
format, attempt delivery, and on failure apply the target's error policy.
The `recover` argument is the recursive `_log` invocation made by the
`LOG` policy arm; it is given the fail time, the derived all-`IGNORE`
target list, the synthesized recovery messages and the clamped rank, and
returns `none` when the modelling fuel is exhausted. -/
def slotFor (ext : Ext) (world : World) (lg : LoggerData) (maxSourceLength : Nat)
    (destroyed : Bool)
    (recover : Nat → List Target → List Msg → Nat → Option (List SlotResult))
    (tNow : Nat) (targets : List Target) (messages : List Msg) (level : Nat)
    (i : Nat) (v : Target) : Option SlotResult :=
  if v.level < level then none
  else
    let content := format ext messages level lg.component lg.source lg.colorHex
      v.uniform maxSourceLength v.format v.color tNow v.fullTimestamps
    let dr := world v.sinkId content
    some (match dr.2 with
      | none => SlotResult.success i v.sinkId content (tNow + dr.1)
      | some e =>
        match v.errorPolicy with
        | EP.THROW => SlotResult.thrownErr i v.sinkId content e (tNow + dr.1)
        | EP.IGNORE => SlotResult.swallowed i v.sinkId content e (tNow + dr.1)
        | EP.LOG =>
          if destroyed then SlotResult.muted i v.sinkId content e (tNow + dr.1)
          else
            match recover (tNow + dr.1)
                (targets.map fun w => { w with errorPolicy := EP.IGNORE })
                [Msg.str ("Failed to log to target " ++ toString i ++ ":"),
                 Msg.diag tNow (levels level) messages e]
                (min level 2) with
            | none => SlotResult.fuelOut i v.sinkId content e (tNow + dr.1)
            | some sub =>
              SlotResult.recovered i v.sinkId content e sub
                (settleAll (tNow + dr.1) sub))

/-- One dispatch pass: `targets.map((v, i) => ...).filter(v => v)` —
every eligible target yields a slot, skipped targets yield nothing. -/
def processSlots (ext : Ext) (world : World) (lg : LoggerData) (maxSourceLength : Nat)
    (destroyed : Bool)
    (recover : Nat → List Target → List Msg → Nat → Option (List SlotResult))
    (tNow : Nat) (targets : List Target) (messages : List Msg) (level : Nat) :
    List SlotResult :=
  targets.enum.filterMap fun iv =>
    slotFor ext world lg maxSourceLength destroyed recover tNow targets messages level
      iv.1 iv.2

/-- The dispatch engine of `_log` (source lines 522-548), fuel-indexed:
`dispatchF (fuel+1)` performs one pass whose `LOG`-policy arm recursively
dispatches with fuel `fuel`; `dispatchF 0` performs one pass in which a
would-be recovery dispatch is replaced by the `fuelOut` marker.  The fuel
is a modelling device only — the anti-recursion theorems show any fuel
of at least 2 yields identical results. -/
def dispatchF (ext : Ext) (world : World) (lg : LoggerData) (maxSourceLength : Nat)
    (destroyed : Bool) : Nat → Nat → List Target → List Msg → Nat → List SlotResult
  | 0 =>
    processSlots ext world lg maxSourceLength destroyed (fun _ _ _ _ => none)
  | fuel + 1 =>
    processSlots ext world lg maxSourceLength destroyed
      (fun t ts ms l =>
        some (dispatchF ext world lg maxSourceLength destroyed fuel t ts ms l))

/-- `_log` (source lines 518-549): throws the dedicated destroyed error
before touching any target when the owning factory is destroyed, else
captures the timestamp `tNow` and runs the dispatch.  The factory's
`destroyed` flag and target list are taken as fixed for the duration of
one call (mid-flight destruction is a concurrency interleaving outside
this model). -/
def _log (ext : Ext) (world : World) (targets : Option (List Target))
    (messages : List Msg) (level : Nat) (lg : LoggerData) (maxSourceLength : Nat)
    (destroyed : Bool) (tNow fuel : Nat) : Except Err (List SlotResult) :=
  if destroyed then Except.error (Err.error "Logger has been destroyed")
  else Except.ok (dispatchF ext world lg maxSourceLength destroyed fuel tNow
    (targets.getD []) messages level)

/-- The rejection a slot contributes to `Promise.all`: only a failed
`THROW`-policy delivery rejects its slot promise. -/
def slotReject : SlotResult → Option (Err × Nat)
  | SlotResult.thrownErr _ _ _ e t => some (e, t)
  | _ => none

/-- The first (earliest-settling) rejection among the given ones. -/
def earliestRejection : List (Err × Nat) → Option (Err × Nat)
  | [] => none
  | x :: xs => some (xs.foldl (fun a b => if b.2 < a.2 then b else a) x)

/-- The settling of `Promise.all` over the slot promises of one `_log`
call: it rejects with the earliest rejection as soon as that slot
rejects, else resolves once every slot has settled. -/
def promiseAll (t0 : Nat) (slots : List SlotResult) : Except (Err × Nat) Nat :=
  match earliestRejection (slots.filterMap slotReject) with
  | some r => Except.error r
  | none => Except.ok (settleAll t0 slots)

/-- The mutable state of a `LoggerFactory` (source lines 429-433):
target list (`none` models the `null` assigned by `destroy`), running
maximum display-name length, destroyed flag. -/
structure FactoryState where
  targets : Option (List Target)
  maxSourceLength : Nat
  destroyed : Bool
  deriving DecidableEq, Repr

/-- A `sourceColor` argument to `createLogger`: absent (`null` or
`undefined`), a hex string, a 24-bit integer, or an array of numbers.
Array elements are modelled as numbers; an element of another JS type
fails the same `every` check and is not modelled separately. -/
inductive ColorSpec where
  | cnull
  | cstr (s : String)
  | cnum (n : Int)
  | carr (l : List Int)
  deriving DecidableEq, Repr

/-- Membership of a character in the `[0-9a-fA-F]` regex class. -/
def isHexDigitChar (c : Char) : Bool :=
  (48 ≤ c.toNat && c.toNat ≤ 57) || (97 ≤ c.toNat && c.toNat ≤ 102)
    || (65 ≤ c.toNat && c.toNat ≤ 70)

/-- The colour validation and resolution block of `createLogger`
(source lines 439-455).  The source mutates one `color` variable through
array → number → string stages; each stage here continues into the next.
The result is the hex string handed to `chalk.hex` (`some`), or `none`
for the `noColor` identity. -/
def resolveColor (sourceColor : ColorSpec) : Except Err (Option String) :=
  let stringy : String → Except Err (Option String) := fun s0 =>
    let s := if s0 ≠ "" && s0.startsWith "#" then s0.drop 1 else s0
    if s ≠ "" && !(s.length == 6 && s.all isHexDigitChar) then
      Except.error (Err.rangeError
        ("Expected sourceColor to be a hex string of length 6, but received "
          ++ s ++ " instead"))
    else Except.ok (if s ≠ "" then some s else none)
  let numeric : Int → Except Err (Option String) := fun n =>
    if ¬ (0 ≤ n ∧ n < 16777216) then
      Except.error (Err.rangeError
        ("Expected sourceColor to be in range 0 to 16777215, but received "
          ++ toString n ++ " instead"))
    else stringy (padStart0 (String.mk (Nat.toDigits 16 n.toNat)) 6)
  match sourceColor with
  | ColorSpec.cnull => Except.ok none
  | ColorSpec.cstr s => stringy s
  | ColorSpec.cnum n => numeric n
  | ColorSpec.carr l =>
    if ¬ ((l.all fun v => decide (0 ≤ v) && decide (v < 256)) = true ∧ l.length = 3) then
      Except.error (Err.typeError
        ("Expected sourceColor to be an array of 3 numbers between 0 and 255, but received "
          ++ String.intercalate "," (l.map toString) ++ " instead"))
    else numeric (l.getD 0 0 * 65536 + l.getD 1 0 * 256 + l.getD 2 0)

/-- `LoggerFactory.createLogger` (source lines 435-463): rejects when
destroyed, validates the colour, then — and only then — raises the
running maximum display-name length and returns the new logger.  Returns
the factory state after the call together with the result, so a thrown
error carries the state exactly as it was at the throw site. -/
def createLogger (st : FactoryState) (component : String) (source : Option String)
    (sourceColor : ColorSpec) : FactoryState × Except Err LoggerData :=
  if st.destroyed then
    (st, Except.error (Err.error "LoggerFacotry has been destroyed"))
  else
    match resolveColor sourceColor with
    | Except.error e => (st, Except.error e)
    | Except.ok colorHex =>
      let sourceLength : Int := (component.length : Int) + 1
        + (match source with
          | some s => (s.length : Int)
          | none => -1)
      let st' := if sourceLength > (st.maxSourceLength : Int) then
          { st with maxSourceLength := sourceLength.toNat }
        else st
      (st', Except.ok { component := component, source := source, colorHex := colorHex })

/-- The sinks `destroy` releases: the `STREAM`-typed targets whose
`private` flag is `true` (source line 469). -/
def privateStreamSinks (ts : List Target) : List Nat :=
  (ts.filter fun v => v.type == TType.STREAM && v.priv == true).map Target.sinkId

/-- `LoggerFactory.destroy` (source lines 465-471): an early return when
already destroyed, else mark destroyed, release every privately-owned
stream sink, and clear the target list.  The second component lists the
sinks released by this call. -/
def destroy (st : FactoryState) : FactoryState × List Nat :=
  if st.destroyed then (st, [])
  else
    ({ st with destroyed := true, targets := none },
      privateStreamSinks (st.targets.getD []))

/-- `Logger.trace` (source lines 486-488): rank `levelNums.TRACE = 6`,
reading the factory's current target list, `maxSourceLength` and
destroyed flag. -/
def loggerTrace (ext : Ext) (world : World) (st : FactoryState) (lg : LoggerData)
    (messages : List Msg) (tNow fuel : Nat) : Except Err (List SlotResult) :=
  _log ext world st.targets messages 6 lg st.maxSourceLength st.destroyed tNow fuel

/-- `Logger.debug`: rank `levelNums.DEBUG = 5`. -/
def loggerDebug (ext : Ext) (world : World) (st : FactoryState) (lg : LoggerData)
    (messages : List Msg) (tNow fuel : Nat) : Except Err (List SlotResult) :=
  _log ext world st.targets messages 5 lg st.maxSourceLength st.destroyed tNow fuel

/-- `Logger.info`: rank `levelNums.INFO = 4`. -/
def loggerInfo (ext : Ext) (world : World) (st : FactoryState) (lg : LoggerData)
    (messages : List Msg) (tNow fuel : Nat) : Except Err (List SlotResult) :=
  _log ext world st.targets messages 4 lg st.maxSourceLength st.destroyed tNow fuel

/-- `Logger.warn`: rank `levelNums.WARN = 3`. -/
def loggerWarn (ext : Ext) (world : World) (st : FactoryState) (lg : LoggerData)
    (messages : List Msg) (tNow fuel : Nat) : Except Err (List SlotResult) :=
  _log ext world st.targets messages 3 lg st.maxSourceLength st.destroyed tNow fuel

/-- `Logger.error`: rank `levelNums.ERROR = 2`. -/
def loggerError (ext : Ext) (world : World) (st : FactoryState) (lg : LoggerData)
    (messages : List Msg) (tNow fuel : Nat) : Except Err (List SlotResult) :=
  _log ext world st.targets messages 2 lg st.maxSourceLength st.destroyed tNow fuel

/-- `Logger.fatal`: rank `levelNums.FATAL = 1`. -/
def loggerFatal (ext : Ext) (world : World) (st : FactoryState) (lg : LoggerData)
    (messages : List Msg) (tNow fuel : Nat) : Except Err (List SlotResult) :=
  _log ext world st.targets messages 1 lg st.maxSourceLength st.destroyed tNow fuel

/-- A raw target descriptor's kind-specific part (§6 of the spec).
A caller-supplied stream or function is an opaque sink identity plus the
result of its `instanceof` capability check; a `POST` url is an opaque
endpoint identity; an unknown kind carries its tag for the error
message. -/
inductive RawKind where
  | FILE (path : String) (failIfExists : Bool) (hasErrorListener : Bool)
  | STREAM (sinkId : Nat) (isWriteStream : Bool)
  | POST (urlId : Nat) (https : JsVal)
  | STDOUT
  | FUNCTION (funcId : Nat) (isFunction : Bool)
  | other (tag : String)
  deriving DecidableEq, Repr

/-- A raw target descriptor: kind plus the shared option fields. -/
structure RawTarget where
  kind : RawKind
  opts : RawCommon
  deriving DecidableEq, Repr

/-- The sink identity of the `console.log` callable used by `STDOUT`
targets. -/
def consoleLogSinkId : Nat := 0

/-- JS `(target.https ?? true)` coerced by the conditional operator:
nullish defaults to `true`, any other value decides by truthiness. -/
def nullishDefaultTrue (v : JsVal) : Bool :=
  match v with
  | JsVal.vundef => true
  | JsVal.vnull => true
  | w => w.truthy

/-- Assembly of a parsed target record from its kind-specific fields and
the shared `baseTargetOptions` spread. -/
def mkTarget (ty : TType) (sid : Nat) (p : Bool) (b : BaseOpts) : Target :=
  { type := ty, sinkId := sid, priv := p, level := b.level, color := b.color,
    uniform := b.uniform, format := b.format, fullTimestamps := b.fullTimestamps,
    errorPolicy := b.errorPolicy }

/-- One arm of the `switch (target.type)` in `createLoggerFactory`
(source lines 693-742).  `freshId` is the next fresh sink identity for a
privately-opened file stream; `FILE` allocates it (the actual
`createWriteStream` call is an external file-system effect), every other
kind leaves it untouched.  `FILE` marks the sink `private: true`,
`STREAM` marks the borrowed sink `private: false`, the remaining kinds
set no `private` field. -/
def parseTarget (t : RawTarget) (freshId : Nat) : Except Err (Target × Nat) :=
  match t.kind with
  | RawKind.FILE _path _failIfExists _hasErrorListener => do
    let b ← baseTargetOptions t.opts
    Except.ok (mkTarget TType.STREAM freshId true b, freshId + 1)
  | RawKind.STREAM sid isWriteStream =>
    if !isWriteStream then Except.error (Err.error "stream must be a WriteStream")
    else do
      let b ← baseTargetOptions t.opts
      Except.ok (mkTarget TType.STREAM sid false b, freshId)
  | RawKind.POST urlId https => do
    let b ← baseTargetOptions t.opts
    Except.ok (mkTarget (if nullishDefaultTrue https then TType.HTTPS else TType.HTTP)
      urlId false b, freshId)
  | RawKind.STDOUT => do
    let b ← baseTargetOptions t.opts
    Except.ok (mkTarget TType.FUNCTION consoleLogSinkId false b, freshId)
  | RawKind.FUNCTION fid isFunction =>
    if !isFunction then Except.error (Err.error "function must be a Function")
    else do
      let b ← baseTargetOptions t.opts
      Except.ok (mkTarget TType.FUNCTION fid false b, freshId)
  | RawKind.other tag => Except.error (Err.typeError ("Invalid target type: " ++ tag))

/-- The `for (const target of targets)` loop of `createLoggerFactory`,
threading the fresh-sink counter. -/
def parseTargets (freshId : Nat) : List RawTarget → Except Err (List Target)
  | [] => Except.ok []
  | t :: ts => do
    let pr ← parseTarget t freshId
    let rest ← parseTargets pr.2 ts
    Except.ok (pr.1 :: rest)

/-- `createLoggerFactory` (source lines 686-748): normalizes every
descriptor (any failure rejects the whole call, committing nothing) and
returns the fresh factory.  `freshBase` is the first sink identity the
factory may allocate for privately-opened file streams; the wrapping of
a single non-array descriptor into a one-element list is done by the
caller of this model. -/
def createLoggerFactory (freshBase : Nat) (targets : List RawTarget) :
    Except Err FactoryState := do
  let parsed ← parseTargets freshBase targets
  Except.ok { targets := some parsed, maxSourceLength := 0, destroyed := false }

/-- A factory-facade operation, for stating frame properties over whole
call sequences. -/
inductive Op where
  | opCreateLogger (component : String) (source : Option String) (color : ColorSpec)
  | opLog (lg : LoggerData) (messages : List Msg) (level : Nat) (tNow fuel : Nat)
  | opDestroy

/-- The factory-state transition and released-sink effect of one
operation.  `createLogger` only ever touches `maxSourceLength` and
releases nothing; `_log` writes to sinks but neither mutates the factory
state nor closes any sink (its source, lines 518-549, contains no
`destroy` call); `destroy` is the one operation that releases sinks. -/
def step (st : FactoryState) : Op → FactoryState × List Nat
  | Op.opCreateLogger c s col => ((createLogger st c s col).1, [])
  | Op.opLog _ _ _ _ _ => (st, [])
  | Op.opDestroy => destroy st

/-- A sequence of operations: final state and every sink released along
the way. -/
def runOps (st : FactoryState) : List Op → FactoryState × List Nat
  | [] => (st, [])
  | op :: ops =>
    let r := step st op
    let rest := runOps r.1 ops
    (rest.1, r.2 ++ rest.2)

/-- Whether a slot neither rejected nor dispatched (or wanted to
dispatch) any recovery: it settled as a plain success or a silently
swallowed failure. -/
def SlotResult.noRecovery : SlotResult → Bool
  | .success .. => true
  | .swallowed .. => true
  | _ => false

/-! Concrete fixtures used by witnesses and counterexamples. -/

/-- A trivial instantiation of the external collaborators: identity
styling, empty inspection and serialization. -/
def extTriv : Ext :=
  { inspectVal := fun _ _ => ""
    stringifyRecord := fun _ _ _ _ _ => ""
    toISO := fun _ => ""
    chalkHex := fun _ s => s
    chalkYellow := id
    chalkYellowBright := id
    chalkBlack := id
    chalkBgRedBright := id
    chalkHexBgRedBright := fun _ s => s }

/-- A sample logger with component name `a`, no sub-source, no colour. -/
def lgPlain : LoggerData := { component := "a", source := none, colorHex := none }

/-- A sample delivery failure value. -/
def errBoom : Err := Err.error "boom"

/-- A JSON target on sink 0 with minimum rank TRACE and policy `LOG`. -/
def tgtJsonLog : Target :=
  { type := TType.STREAM, sinkId := 0, priv := true, level := 6, color := false,
    uniform := false, format := Fmt.JSON, fullTimestamps := false,
    errorPolicy := EP.LOG }

/-- A JSON target on sink 0 with policy `THROW`. -/
def tgtJsonThrow : Target := { tgtJsonLog with priv := false, errorPolicy := EP.THROW }

/-- A JSON target on sink 1 with policy `IGNORE`. -/
def tgtJsonIgnore : Target :=
  { tgtJsonLog with sinkId := 1, priv := false, errorPolicy := EP.IGNORE }

/-- A TEXT target with uniform padding enabled. -/
def tgtTextUniform : Target :=
  { type := TType.STREAM, sinkId := 0, priv := false, level := 6, color := false,
    uniform := true, format := Fmt.TEXT, fullTimestamps := false,
    errorPolicy := EP.LOG }

/-- A world in which every delivery to sink 0 fails after 1ms and every
other delivery succeeds after 5ms. -/
def worldFail0 : World := fun sid _ => if sid = 0 then (1, some errBoom) else (5, none)

/-- A world in which every delivery succeeds after 1ms. -/
def worldAllOk : World := fun _ _ => (1, none)

/-- A fresh factory holding the single uniform-padding TEXT target. -/
def stInit : FactoryState :=
  { targets := some [tgtTextUniform], maxSourceLength := 0, destroyed := false }

/-- Raw shared options leaving every field unspecified (`undefined`). -/
def rawDefault : RawCommon :=
  { logLevel := JsVal.vundef, color := false, uniformLength := false,
    style := JsVal.vundef, fullTimestamps := false, errorPolicy := JsVal.vundef }

/-- A raw `STREAM` descriptor supplying the caller-owned sink 3. -/
def rawStream3 : RawTarget := { kind := RawKind.STREAM 3 true, opts := rawDefault }

/-- A raw `FILE` descriptor. -/
def rawFileT : RawTarget := { kind := RawKind.FILE "a.log" false false, opts := rawDefault }

/-- The normalized option record produced by fully-default shared
options. -/
def baseDefault : BaseOpts :=
  { level := 6, color := false, uniform := false, format := Fmt.TEXT,
    fullTimestamps := false, errorPolicy := EP.LOG }

/-! Helper lemmas about one slot of a dispatch pass. -/

/-- A target is skipped exactly when its minimum rank is numerically
smaller than the event's rank. -/
theorem slotFor_eq_none_iff (ext : Ext) (world : World) (lg : LoggerData)
    (maxLen : Nat) (destroyed : Bool)
    (recover : Nat → List Target → List Msg → Nat → Option (List SlotResult))
    (tNow : Nat) (targets : List Target) (messages : List Msg) (level i : Nat)
    (v : Target) :
    slotFor ext world lg maxLen destroyed recover tNow targets messages level i v = none
      ↔ v.level < level := by
  unfold slotFor
  split
  · simp [*]
  · simp [*]

/-- A produced slot carries the index of the target it was produced
for. -/
theorem slotFor_idx (ext : Ext) (world : World) (lg : LoggerData)
    (maxLen : Nat) (destroyed : Bool)
    (recover : Nat → List Target → List Msg → Nat → Option (List SlotResult))
    (tNow : Nat) (targets : List Target) (messages : List Msg) (level i : Nat)
    (v : Target) (s : SlotResult)
    (h : slotFor ext world lg maxLen destroyed recover tNow targets messages level i v
      = some s) : s.idx = i := by
  unfold slotFor at h
  split at h
  · exact absurd h (by simp)
  · injection h with h
    subst h
    repeat' split
    all_goals rfl

/-- A produced slot carries the content formatted for its target with
the `maxSourceLength` the dispatch was invoked with. -/
theorem slotFor_content (ext : Ext) (world : World) (lg : LoggerData)
    (maxLen : Nat) (destroyed : Bool)
    (recover : Nat → List Target → List Msg → Nat → Option (List SlotResult))
    (tNow : Nat) (targets : List Target) (messages : List Msg) (level i : Nat)
    (v : Target) (s : SlotResult)
    (h : slotFor ext world lg maxLen destroyed recover tNow targets messages level i v
      = some s) :
    s.content = format ext messages level lg.component lg.source lg.colorHex
      v.uniform maxLen v.format v.color tNow v.fullTimestamps := by
  unfold slotFor at h
  split at h
  · exact absurd h (by simp)
  · injection h with h
    subst h
    repeat' split
    all_goals rfl

/-- A slot of an all-`IGNORE` target list settles as a success or as a
silently swallowed failure: no rejection, no recovery. -/
theorem slotFor_ignore_noRecovery (ext : Ext) (world : World) (lg : LoggerData)
    (maxLen : Nat) (destroyed : Bool)
    (recover : Nat → List Target → List Msg → Nat → Option (List SlotResult))
    (tNow : Nat) (targets : List Target) (messages : List Msg) (level i : Nat)
    (v : Target) (s : SlotResult) (hp : v.errorPolicy = EP.IGNORE)
    (h : slotFor ext world lg maxLen destroyed recover tNow targets messages level i v
      = some s) : s.noRecovery = true := by
  unfold slotFor at h
  split at h
  · exact absurd h (by simp)
  · injection h with h
    subst h
    repeat' split
    all_goals simp_all [SlotResult.noRecovery]

/-- Dispatching against an all-`IGNORE` target list produces only
`noRecovery` slots, whatever the recovery continuation is. -/
theorem processSlots_ignore_noRecovery (ext : Ext) (world : World) (lg : LoggerData)
    (maxLen : Nat) (destroyed : Bool)
    (recover : Nat → List Target → List Msg → Nat → Option (List SlotResult))
    (tNow : Nat) (targets : List Target) (messages : List Msg) (level : Nat)
    (hall : ∀ w ∈ targets, w.errorPolicy = EP.IGNORE) :
    ∀ s ∈ processSlots ext world lg maxLen destroyed recover tNow targets messages level,
      s.noRecovery = true := by
  intro s hs
  unfold processSlots at hs
  obtain ⟨iv, hiv, hf⟩ := List.mem_filterMap.mp hs
  have hw : iv.2 ∈ targets :=
    List.mem_iff_getElem?.mpr ⟨iv.1, List.mem_enum_iff_getElem?.mp hiv⟩
  exact slotFor_ignore_noRecovery ext world lg maxLen destroyed recover tNow targets
    messages level iv.1 iv.2 s (hall iv.2 hw) hf

/-- One dispatch pass holds a slot for index `i` exactly when the event's
rank passes target `i`'s minimum rank. -/
theorem processSlots_delivers_iff (ext : Ext) (world : World) (lg : LoggerData)
    (maxLen : Nat) (destroyed : Bool)
    (recover : Nat → List Target → List Msg → Nat → Option (List SlotResult))
    (tNow : Nat) (targets : List Target) (messages : List Msg) (level i : Nat)
    (v : Target) (hv : targets[i]? = some v) :
    (∃ s ∈ processSlots ext world lg maxLen destroyed recover tNow targets messages
        level, s.idx = i)
      ↔ level ≤ v.level := by
  constructor
  · rintro ⟨s, hs, hidx⟩
    obtain ⟨iv, hiv, hf⟩ := List.mem_filterMap.mp hs
    have h1 : s.idx = iv.1 :=
      slotFor_idx ext world lg maxLen destroyed recover tNow targets messages level
        iv.1 iv.2 s hf
    have hget : targets[iv.1]? = some iv.2 := List.mem_enum_iff_getElem?.mp hiv
    rw [hidx] at h1
    rw [← h1] at hget
    rw [hv] at hget
    injection hget with hget
    subst hget
    by_contra hlt
    rw [Nat.not_le] at hlt
    have hnone : slotFor ext world lg maxLen destroyed recover tNow targets messages
        level iv.1 iv.2 = none := by
      rw [slotFor_eq_none_iff]
      exact hlt
    rw [hnone] at hf
    exact Option.noConfusion hf
  · intro hle
    have hne : slotFor ext world lg maxLen destroyed recover tNow targets messages
        level i v ≠ none := by
      simp only [Ne, slotFor_eq_none_iff]
      omega
    obtain ⟨s, hs⟩ := Option.ne_none_iff_exists'.mp hne
    refine ⟨s, ?_, slotFor_idx ext world lg maxLen destroyed recover tNow targets
      messages level i v s hs⟩
    exact List.mem_filterMap.mpr ⟨(i, v), List.mem_enum_iff_getElem?.mpr hv, hs⟩

/-- C1.  For every log call at rank `level` and every target `v` with
minimum rank `v.level`, the dispatcher holds a delivery slot for that
target if and only if `level ≤ v.level` numerically; a target failing the
comparison yields no slot at all — it is never formatted for nor written
to. -/
theorem dispatch_delivers_iff_rank_le (ext : Ext) (world : World) (lg : LoggerData)
    (maxLen : Nat) (destroyed : Bool) (fuel tNow : Nat) (targets : List Target)
    (messages : List Msg) (level i : Nat) (v : Target)
    (hv : targets[i]? = some v) :
    (∃ s ∈ dispatchF ext world lg maxLen destroyed fuel tNow targets messages level,
        s.idx = i)
      ↔ level ≤ v.level := by
  cases fuel with
  | zero =>
    exact processSlots_delivers_iff ext world lg maxLen destroyed _ tNow targets
      messages level i v hv
  | succ f =>
    exact processSlots_delivers_iff ext world lg maxLen destroyed _ tNow targets
      messages level i v hv

/-- Witness for C1 at a concrete input: an `INFO`-rank event against a
single `TRACE`-minimum target. -/
theorem dispatch_delivers_iff_rank_le_witness :
    (∃ s ∈ dispatchF extTriv worldAllOk lgPlain 0 false 2 0 [tgtJsonLog]
        [Msg.str "m"] 4, s.idx = 0)
      ↔ 4 ≤ tgtJsonLog.level :=
  dispatch_delivers_iff_rank_le extTriv worldAllOk lgPlain 0 false 2 0 [tgtJsonLog]
    [Msg.str "m"] 4 0 tgtJsonLog (by rfl)

/-- The only way a dispatch pass produces a `recovered` slot is that its
recovery continuation was invoked on the derived target list in which
every error policy has been overridden to `IGNORE`. -/
theorem slotFor_recovered_sub (ext : Ext) (world : World) (lg : LoggerData)
    (maxLen : Nat) (destroyed : Bool)
    (recover : Nat → List Target → List Msg → Nat → Option (List SlotResult))
    (tNow : Nat) (targets : List Target) (messages : List Msg) (level i : Nat)
    (v : Target) (a b : Nat) (c : Option String) (e : Err) (sub : List SlotResult)
    (t : Nat)
    (h : slotFor ext world lg maxLen destroyed recover tNow targets messages level i v
      = some (SlotResult.recovered a b c e sub t)) :
    ∃ t' ms' l', recover t' (targets.map fun w => { w with errorPolicy := EP.IGNORE })
      ms' l' = some sub := by
  unfold slotFor at h
  split at h
  · exact absurd h (by simp)
  · injection h with h
    split at h
    · exact SlotResult.noConfusion h
    · split at h
      · exact SlotResult.noConfusion h
      · exact SlotResult.noConfusion h
      · split at h
        · exact SlotResult.noConfusion h
        · split at h
          · exact SlotResult.noConfusion h
          · rename_i sub' heq
            injection h with h1 h2 h3 h4 h5 h6
            subst h5
            exact ⟨_, _, _, heq⟩

/-- Every slot of a dispatch against an all-`IGNORE` target list settles
without rejection and without recovery, for any fuel. -/
theorem dispatchF_ignore_noRecovery (ext : Ext) (world : World) (lg : LoggerData)
    (maxLen : Nat) (destroyed : Bool) (fuel tNow : Nat) (targets : List Target)
    (messages : List Msg) (level : Nat)
    (hall : ∀ w ∈ targets, w.errorPolicy = EP.IGNORE) :
    ∀ s ∈ dispatchF ext world lg maxLen destroyed fuel tNow targets messages level,
      s.noRecovery = true := by
  cases fuel with
  | zero =>
    exact processSlots_ignore_noRecovery ext world lg maxLen destroyed _ tNow targets
      messages level hall
  | succ f =>
    exact processSlots_ignore_noRecovery ext world lg maxLen destroyed _ tNow targets
      messages level hall

/-- C2.  A failure occurring while delivering a recovery event never
triggers a further recovery dispatch: whenever any dispatch (at any fuel)
produced a `recovered` slot, every target of the derived list that the
recovery event was dispatched against carries error policy `IGNORE`, and
every slot of the nested recovery dispatch settled as a plain success or
a silently swallowed failure — no rejection, no further recovery, no
fuel exhaustion.  Recursion depth is therefore bounded to exactly one
extra level regardless of how many targets fail. -/
theorem recovery_failure_is_muted (ext : Ext) (world : World) (lg : LoggerData)
    (maxLen : Nat) (destroyed : Bool) (fuel tNow : Nat) (targets : List Target)
    (messages : List Msg) (level : Nat) (s : SlotResult)
    (hs : s ∈ dispatchF ext world lg maxLen destroyed fuel tNow targets messages level)
    (a b : Nat) (c : Option String) (e : Err) (sub : List SlotResult) (t : Nat)
    (hrec : s = SlotResult.recovered a b c e sub t) :
    (∀ w ∈ targets.map fun w => { w with errorPolicy := EP.IGNORE },
        w.errorPolicy = EP.IGNORE)
    ∧ ∀ u ∈ sub, u.noRecovery = true := by
  subst hrec
  refine ⟨?_, ?_⟩
  · intro w hw
    obtain ⟨x, _, hx⟩ := List.mem_map.mp hw
    rw [← hx]
  · cases fuel with
    | zero =>
      obtain ⟨iv, hiv, hf⟩ := List.mem_filterMap.mp hs
      obtain ⟨t', ms', l', hr⟩ := slotFor_recovered_sub ext world lg maxLen destroyed
        _ tNow targets messages level iv.1 iv.2 a b c e sub t hf
      exact absurd hr (by simp)
    | succ f =>
      obtain ⟨iv, hiv, hf⟩ := List.mem_filterMap.mp hs
      obtain ⟨t', ms', l', hr⟩ := slotFor_recovered_sub ext world lg maxLen destroyed
        _ tNow targets messages level iv.1 iv.2 a b c e sub t hf
      injection hr with hr
      intro u hu
      rw [← hr] at hu
      refine dispatchF_ignore_noRecovery ext world lg maxLen destroyed f t' _ ms' l'
        ?_ u hu
      intro w hw
      obtain ⟨x, _, hx⟩ := List.mem_map.mp hw
      rw [← hx]

/-- Witness for C2 at a concrete input: a single failing `LOG`-policy
target; the recovery dispatch's one slot is a swallowed failure. -/
theorem recovery_failure_is_muted_witness :
    (∀ w ∈ [tgtJsonLog].map fun w => { w with errorPolicy := EP.IGNORE },
        w.errorPolicy = EP.IGNORE)
    ∧ ∀ u ∈ [SlotResult.swallowed 0 0 (some "") errBoom 2], u.noRecovery = true := by
  have hmem : SlotResult.recovered 0 0 (some "") errBoom
      [SlotResult.swallowed 0 0 (some "") errBoom 2] 2
      ∈ dispatchF extTriv worldFail0 lgPlain 0 false 2 0 [tgtJsonLog]
        [Msg.str "m"] 6 := by
    have h : dispatchF extTriv worldFail0 lgPlain 0 false 2 0 [tgtJsonLog]
        [Msg.str "m"] 6
        = [SlotResult.recovered 0 0 (some "") errBoom
            [SlotResult.swallowed 0 0 (some "") errBoom 2] 2] := by rfl
    rw [h]
    exact List.mem_singleton.mpr rfl
  exact recovery_failure_is_muted extTriv worldFail0 lgPlain 0 false 2 0 [tgtJsonLog]
    [Msg.str "m"] 6 _ hmem 0 0 (some "") errBoom
    [SlotResult.swallowed 0 0 (some "") errBoom 2] 2 rfl

/-- The slot a dispatch pass produces for an eligible `LOG`-policy target
whose delivery fails: exactly the `recovered` slot described by C3. -/
theorem slotFor_log_failure (ext : Ext) (world : World) (lg : LoggerData)
    (maxLen : Nat)
    (recover : Nat → List Target → List Msg → Nat → Option (List SlotResult))
    (tNow : Nat) (targets : List Target) (messages : List Msg) (level i : Nat)
    (v : Target) (d : Nat) (e : Err)
    (helig : ¬ v.level < level) (hpol : v.errorPolicy = EP.LOG)
    (hfail : world v.sinkId (format ext messages level lg.component lg.source
      lg.colorHex v.uniform maxLen v.format v.color tNow v.fullTimestamps)
      = (d, some e)) :
    slotFor ext world lg maxLen false recover tNow targets messages level i v
      = some (match recover (tNow + d)
          (targets.map fun w => { w with errorPolicy := EP.IGNORE })
          [Msg.str ("Failed to log to target " ++ toString i ++ ":"),
           Msg.diag tNow (levels level) messages e]
          (min level 2) with
        | none => SlotResult.fuelOut i v.sinkId
            (format ext messages level lg.component lg.source lg.colorHex v.uniform
              maxLen v.format v.color tNow v.fullTimestamps) e (tNow + d)
        | some sub => SlotResult.recovered i v.sinkId
            (format ext messages level lg.component lg.source lg.colorHex v.uniform
              maxLen v.format v.color tNow v.fullTimestamps) e sub
            (settleAll (tNow + d) sub)) := by
  unfold slotFor
  rw [if_neg helig]
  simp only [hfail, hpol]
  rfl

/-- C3.  When delivery to eligible target `i` fails and its policy is
`LOG`, the dispatcher's slot for `i` is a recovery dispatch whose event
carries the message `"Failed to log to target " ++ toString i ++ ":"`
followed by the diagnostic record of timestamp, level name, original
messages and the error, whose rank is `min level 2` (never less severe
than `ERROR = 2`, but an original `FATAL = 1` is kept), and which runs
against the derived list identical to the original except every error
policy is `IGNORE`. -/
theorem log_failure_synthesizes_recovery (ext : Ext) (world : World)
    (lg : LoggerData) (maxLen fuel tNow : Nat) (targets : List Target)
    (messages : List Msg) (level i : Nat) (v : Target) (d : Nat) (e : Err)
    (hv : targets[i]? = some v) (helig : ¬ v.level < level)
    (hpol : v.errorPolicy = EP.LOG)
    (hfail : world v.sinkId (format ext messages level lg.component lg.source
      lg.colorHex v.uniform maxLen v.format v.color tNow v.fullTimestamps)
      = (d, some e)) :
    SlotResult.recovered i v.sinkId
        (format ext messages level lg.component lg.source lg.colorHex v.uniform
          maxLen v.format v.color tNow v.fullTimestamps) e
        (dispatchF ext world lg maxLen false fuel (tNow + d)
          (targets.map fun w => { w with errorPolicy := EP.IGNORE })
          [Msg.str ("Failed to log to target " ++ toString i ++ ":"),
           Msg.diag tNow (levels level) messages e]
          (min level 2))
        (settleAll (tNow + d)
          (dispatchF ext world lg maxLen false fuel (tNow + d)
            (targets.map fun w => { w with errorPolicy := EP.IGNORE })
            [Msg.str ("Failed to log to target " ++ toString i ++ ":"),
             Msg.diag tNow (levels level) messages e]
            (min level 2)))
      ∈ dispatchF ext world lg maxLen false (fuel + 1) tNow targets messages level
    ∧ (∀ (j : Nat) (w : Target), targets[j]? = some w →
        (targets.map fun w => { w with errorPolicy := EP.IGNORE })[j]?
          = some { w with errorPolicy := EP.IGNORE }) := by
  constructor
  · refine List.mem_filterMap.mpr ⟨(i, v), List.mem_enum_iff_getElem?.mpr hv, ?_⟩
    exact slotFor_log_failure ext world lg maxLen _ tNow targets messages level i v
      d e helig hpol hfail
  · intro j w hw
    rw [List.getElem?_map]
    rw [hw]
    rfl

/-- Witness for C3 at a concrete input: the single failing `LOG`-policy
target of the C2 fixture. -/
theorem log_failure_synthesizes_recovery_witness :
    SlotResult.recovered 0 tgtJsonLog.sinkId
        (format extTriv [Msg.str "m"] 6 lgPlain.component lgPlain.source
          lgPlain.colorHex tgtJsonLog.uniform 0 tgtJsonLog.format tgtJsonLog.color 0
          tgtJsonLog.fullTimestamps) errBoom
        (dispatchF extTriv worldFail0 lgPlain 0 false 1 (0 + 1)
          ([tgtJsonLog].map fun w => { w with errorPolicy := EP.IGNORE })
          [Msg.str ("Failed to log to target " ++ toString 0 ++ ":"),
           Msg.diag 0 (levels 6) [Msg.str "m"] errBoom]
          (min 6 2))
        (settleAll (0 + 1)
          (dispatchF extTriv worldFail0 lgPlain 0 false 1 (0 + 1)
            ([tgtJsonLog].map fun w => { w with errorPolicy := EP.IGNORE })
            [Msg.str ("Failed to log to target " ++ toString 0 ++ ":"),
             Msg.diag 0 (levels 6) [Msg.str "m"] errBoom]
            (min 6 2)))
      ∈ dispatchF extTriv worldFail0 lgPlain 0 false (1 + 1) 0 [tgtJsonLog]
        [Msg.str "m"] 6
    ∧ (∀ (j : Nat) (w : Target), [tgtJsonLog][j]? = some w →
        ([tgtJsonLog].map fun w => { w with errorPolicy := EP.IGNORE })[j]?
          = some { w with errorPolicy := EP.IGNORE }) :=
  log_failure_synthesizes_recovery extTriv worldFail0 lgPlain 0 1 0 [tgtJsonLog]
    [Msg.str "m"] 6 0 tgtJsonLog 1 errBoom (by rfl) (by simp [tgtJsonLog])
    (by rfl) (by rfl)

/-- The fold inside `earliestRejection` picks an element of `a :: xs`
whose settle time is minimal. -/
theorem foldl_earliest_spec (xs : List (Err × Nat)) (a : Err × Nat) :
    (xs.foldl (fun a b => if b.2 < a.2 then b else a) a) ∈ a :: xs
    ∧ (xs.foldl (fun a b => if b.2 < a.2 then b else a) a).2 ≤ a.2
    ∧ ∀ y ∈ xs, (xs.foldl (fun a b => if b.2 < a.2 then b else a) a).2 ≤ y.2 := by
  induction xs generalizing a with
  | nil => exact ⟨List.mem_singleton.mpr rfl, Nat.le_refl _, by simp⟩
  | cons y ys ih =>
    simp only [List.foldl_cons]
    obtain ⟨hmem, hle, hall⟩ := ih (if y.2 < a.2 then y else a)
    by_cases h : y.2 < a.2
    · rw [if_pos h] at hmem hle hall
      rw [if_pos h]
      refine ⟨?_, ?_, ?_⟩
      · rcases List.mem_cons.mp hmem with h1 | h1
        · exact List.mem_cons.mpr (Or.inr (List.mem_cons.mpr (Or.inl h1)))
        · exact List.mem_cons.mpr (Or.inr (List.mem_cons.mpr (Or.inr h1)))
      · exact Nat.le_trans hle (Nat.le_of_lt h)
      · intro z hz
        rcases List.mem_cons.mp hz with h1 | h1
        · rw [h1]
          exact hle
        · exact hall z h1
    · rw [if_neg h] at hmem hle hall
      rw [if_neg h]
      refine ⟨?_, hle, ?_⟩
      · rcases List.mem_cons.mp hmem with h1 | h1
        · exact List.mem_cons.mpr (Or.inl h1)
        · exact List.mem_cons.mpr (Or.inr (List.mem_cons.mpr (Or.inr h1)))
      · intro z hz
        rcases List.mem_cons.mp hz with h1 | h1
        · rw [h1]
          exact Nat.le_trans hle (Nat.le_of_not_lt h)
        · exact hall z h1

/-- The earliest rejection is one of the rejections and settles no later
than any of them. -/
theorem earliestRejection_spec (rs : List (Err × Nat)) (r : Err × Nat)
    (h : earliestRejection rs = some r) : r ∈ rs ∧ ∀ x ∈ rs, r.2 ≤ x.2 := by
  cases rs with
  | nil => exact Option.noConfusion h
  | cons x xs =>
    unfold earliestRejection at h
    injection h with h
    obtain ⟨hmem, hle, hall⟩ := foldl_earliest_spec xs x
    rw [h] at hmem hle hall
    refine ⟨hmem, ?_⟩
    intro z hz
    rcases List.mem_cons.mp hz with h1 | h1
    · rw [h1]
      exact hle
    · exact hall z h1

/-- C4 counterexample.  A `THROW`-policy target failing after 1ms next to
an `IGNORE`-policy target succeeding after 5ms: the log call rejects with
the failure already at time 1, before the slower target's operation has
settled at time 5 — the failure does not wait for every target to settle.
The slow target's delivery still completes: its success slot is present. -/
theorem throw_failure_waits_counterexample :
    promiseAll 0 (dispatchF extTriv worldFail0 lgPlain 0 false 2 0
        [tgtJsonThrow, tgtJsonIgnore] [Msg.str "m"] 6)
      = Except.error (errBoom, 1)
    ∧ SlotResult.success 1 1 (some "") 5
        ∈ dispatchF extTriv worldFail0 lgPlain 0 false 2 0
          [tgtJsonThrow, tgtJsonIgnore] [Msg.str "m"] 6
    ∧ 1 < (SlotResult.success 1 1 (some "") 5).time := by
  have h : dispatchF extTriv worldFail0 lgPlain 0 false 2 0
      [tgtJsonThrow, tgtJsonIgnore] [Msg.str "m"] 6
      = [SlotResult.thrownErr 0 0 (some "") errBoom 1,
         SlotResult.success 1 1 (some "") 5] := by rfl
  refine ⟨by rfl, ?_, by decide⟩
  rw [h]
  exact List.mem_cons_of_mem _ (List.mem_singleton.mpr rfl)

/-- C4 as amended.  When any `THROW`-policy target of a log call fails,
the failure surfaces to the caller at the settle time of the earliest
rejecting slot — possibly before other targets' operations have settled,
since `Promise.all` is fail-fast — and the failure of one target does not
cancel delivery to the others: every rank-eligible target still holds its
own delivery slot. -/
theorem throw_failure_surfaces_at_first_rejection (ext : Ext) (world : World)
    (lg : LoggerData) (maxLen : Nat) (destroyed : Bool) (fuel tNow t0 : Nat)
    (targets : List Target) (messages : List Msg) (level : Nat) (r : Err × Nat)
    (h : earliestRejection
      ((dispatchF ext world lg maxLen destroyed fuel tNow targets messages
        level).filterMap slotReject) = some r) :
    promiseAll t0 (dispatchF ext world lg maxLen destroyed fuel tNow targets messages
        level) = Except.error r
    ∧ r ∈ (dispatchF ext world lg maxLen destroyed fuel tNow targets messages
        level).filterMap slotReject
    ∧ (∀ x ∈ (dispatchF ext world lg maxLen destroyed fuel tNow targets messages
        level).filterMap slotReject, r.2 ≤ x.2)
    ∧ ∀ (i : Nat) (v : Target), targets[i]? = some v → level ≤ v.level →
        ∃ s ∈ dispatchF ext world lg maxLen destroyed fuel tNow targets messages
          level, s.idx = i := by
  obtain ⟨hmem, hall⟩ := earliestRejection_spec _ r h
  refine ⟨?_, hmem, hall, ?_⟩
  · unfold promiseAll
    rw [h]
  · intro i v hv hle
    cases fuel with
    | zero =>
      exact (processSlots_delivers_iff ext world lg maxLen destroyed _ tNow targets
        messages level i v hv).mpr hle
    | succ f =>
      exact (processSlots_delivers_iff ext world lg maxLen destroyed _ tNow targets
        messages level i v hv).mpr hle

/-- Witness for the amended C4 at the concrete counterexample input. -/
theorem throw_failure_surfaces_at_first_rejection_witness :
    promiseAll 0 (dispatchF extTriv worldFail0 lgPlain 0 false 2 0
        [tgtJsonThrow, tgtJsonIgnore] [Msg.str "m"] 6) = Except.error (errBoom, 1)
    ∧ (errBoom, 1) ∈ (dispatchF extTriv worldFail0 lgPlain 0 false 2 0
        [tgtJsonThrow, tgtJsonIgnore] [Msg.str "m"] 6).filterMap slotReject
    ∧ (∀ x ∈ (dispatchF extTriv worldFail0 lgPlain 0 false 2 0
        [tgtJsonThrow, tgtJsonIgnore] [Msg.str "m"] 6).filterMap slotReject,
        (errBoom, 1).2 ≤ x.2)
    ∧ ∀ (i : Nat) (v : Target), [tgtJsonThrow, tgtJsonIgnore][i]? = some v →
        6 ≤ v.level →
        ∃ s ∈ dispatchF extTriv worldFail0 lgPlain 0 false 2 0
          [tgtJsonThrow, tgtJsonIgnore] [Msg.str "m"] 6, s.idx = i :=
  throw_failure_surfaces_at_first_rejection extTriv worldFail0 lgPlain 0 false 2 0 0
    [tgtJsonThrow, tgtJsonIgnore] [Msg.str "m"] 6 (errBoom, 1) (by rfl)

/-- C5 counterexample.  Create logger `a` (running maximum becomes 1),
then logger `abcd` (running maximum becomes 4), then log through logger
`a`: the line is padded to width 4 — the factory's running maximum at
log-call time — and differs from the line that the
frozen-at-creation-time width 1 would produce.  The later `createLogger`
therefore does retroactively affect the earlier logger's output. -/
theorem padding_frozen_at_creation_counterexample :
    (createLogger stInit "a" none ColorSpec.cnull).2 = Except.ok lgPlain
    ∧ (createLogger stInit "a" none ColorSpec.cnull).1.maxSourceLength = 1
    ∧ (createLogger (createLogger stInit "a" none ColorSpec.cnull).1 "abcd" none
        ColorSpec.cnull).1.maxSourceLength = 4
    ∧ loggerInfo extTriv worldAllOk
        (createLogger (createLogger stInit "a" none ColorSpec.cnull).1 "abcd" none
          ColorSpec.cnull).1 lgPlain [Msg.str "x"] 0 2
      = Except.ok [SlotResult.success 0 0
          (format extTriv [Msg.str "x"] 4 "a" none none true 4 Fmt.TEXT false 0 false)
          1]
    ∧ format extTriv [Msg.str "x"] 4 "a" none none true 4 Fmt.TEXT false 0 false
        ≠ format extTriv [Msg.str "x"] 4 "a" none none true 1 Fmt.TEXT false 0 false := by
  refine ⟨by rfl, by rfl, by rfl, by rfl, by decide⟩

/-- C5 as amended.  The display-name length used for uniform padding of a
log call is the factory's running maximum as read at log-call time: every
slot of a `Logger.info` call formats with the factory's current
`maxSourceLength`, so a later `createLogger` that raises the maximum does
affect subsequent output of already-created loggers. -/
theorem padding_uses_call_time_max (ext : Ext) (world : World) (st : FactoryState)
    (lg : LoggerData) (messages : List Msg) (tNow fuel : Nat)
    (slots : List SlotResult)
    (hok : loggerInfo ext world st lg messages tNow fuel = Except.ok slots) :
    ∀ s ∈ slots, ∃ v ∈ st.targets.getD [],
      s.content = format ext messages 4 lg.component lg.source lg.colorHex v.uniform
        st.maxSourceLength v.format v.color tNow v.fullTimestamps := by
  unfold loggerInfo _log at hok
  split at hok
  · exact Except.noConfusion hok
  · injection hok with hok
    intro s hs
    rw [← hok] at hs
    have key : ∀ (recover : Nat → List Target → List Msg → Nat →
        Option (List SlotResult)),
        s ∈ processSlots ext world lg st.maxSourceLength st.destroyed recover tNow
          (st.targets.getD []) messages 4 →
        ∃ v ∈ st.targets.getD [],
          s.content = format ext messages 4 lg.component lg.source lg.colorHex
            v.uniform st.maxSourceLength v.format v.color tNow v.fullTimestamps := by
      intro recover hmem
      obtain ⟨iv, hiv, hf⟩ := List.mem_filterMap.mp hmem
      refine ⟨iv.2, List.mem_iff_getElem?.mpr ⟨iv.1,
        List.mem_enum_iff_getElem?.mp hiv⟩, ?_⟩
      exact slotFor_content ext world lg st.maxSourceLength st.destroyed recover tNow
        (st.targets.getD []) messages 4 iv.1 iv.2 s hf
    cases fuel with
    | zero => exact key _ hs
    | succ f => exact key _ hs

/-- Witness for the amended C5 at the concrete counterexample input: the
one slot of the log call is formatted at the call-time running maximum. -/
theorem padding_uses_call_time_max_witness :
    ∃ v ∈ (createLogger (createLogger stInit "a" none ColorSpec.cnull).1 "abcd"
        none ColorSpec.cnull).1.targets.getD [],
      (SlotResult.success 0 0
          (format extTriv [Msg.str "x"] 4 "a" none none true 4 Fmt.TEXT false 0 false)
          1).content
        = format extTriv [Msg.str "x"] 4 lgPlain.component lgPlain.source
            lgPlain.colorHex v.uniform
            (createLogger (createLogger stInit "a" none ColorSpec.cnull).1 "abcd" none
              ColorSpec.cnull).1.maxSourceLength v.format v.color 0
            v.fullTimestamps :=
  padding_uses_call_time_max extTriv worldAllOk
    (createLogger (createLogger stInit "a" none ColorSpec.cnull).1 "abcd" none
      ColorSpec.cnull).1 lgPlain [Msg.str "x"] 0 2
    [SlotResult.success 0 0
      (format extTriv [Msg.str "x"] 4 "a" none none true 4 Fmt.TEXT false 0 false) 1]
    (by rfl)
    (SlotResult.success 0 0
      (format extTriv [Msg.str "x"] 4 "a" none none true 4 Fmt.TEXT false 0 false) 1)
    (List.mem_singleton.mpr rfl)

/-- After `destroy`, the destroyed flag is set, whatever the prior
state. -/
theorem destroy_destroyed (st : FactoryState) : (destroy st).1.destroyed = true := by
  unfold destroy
  split
  · rename_i h
    exact h
  · rfl

/-- C6.  After `factory.destroy()`, every logger-level log call fails
immediately with the dedicated destroyed error (`_log` throws before any
target is touched, so its result carries no slot), and every
`createLogger` call fails with the dedicated destroyed error leaving the
state untouched. -/
theorem destroyed_rejects_all (ext : Ext) (world : World) (st : FactoryState)
    (lg : LoggerData) (messages : List Msg) (tNow fuel : Nat) (c : String)
    (so : Option String) (col : ColorSpec) :
    loggerTrace ext world (destroy st).1 lg messages tNow fuel
      = Except.error (Err.error "Logger has been destroyed")
    ∧ loggerDebug ext world (destroy st).1 lg messages tNow fuel
      = Except.error (Err.error "Logger has been destroyed")
    ∧ loggerInfo ext world (destroy st).1 lg messages tNow fuel
      = Except.error (Err.error "Logger has been destroyed")
    ∧ loggerWarn ext world (destroy st).1 lg messages tNow fuel
      = Except.error (Err.error "Logger has been destroyed")
    ∧ loggerError ext world (destroy st).1 lg messages tNow fuel
      = Except.error (Err.error "Logger has been destroyed")
    ∧ loggerFatal ext world (destroy st).1 lg messages tNow fuel
      = Except.error (Err.error "Logger has been destroyed")
    ∧ createLogger (destroy st).1 c so col
      = ((destroy st).1, Except.error (Err.error "LoggerFacotry has been destroyed")) := by
  have hd : (destroy st).1.destroyed = true := destroy_destroyed st
  refine ⟨?_, ?_, ?_, ?_, ?_, ?_, ?_⟩
  · simp [loggerTrace, _log, hd]
  · simp [loggerDebug, _log, hd]
  · simp [loggerInfo, _log, hd]
  · simp [loggerWarn, _log, hd]
  · simp [loggerError, _log, hd]
  · simp [loggerFatal, _log, hd]
  · simp [createLogger, hd]

/-- C7.  `destroy` is idempotent: a second call returns the state of the
first call unchanged and releases no sink (no double-release, no
exception — the function is total), and after the first call the
destroyed flag is set and the target list of a freshly destroyed factory
is cleared. -/
theorem destroy_idempotent (st : FactoryState) :
    destroy (destroy st).1 = ((destroy st).1, [])
    ∧ (destroy st).1.destroyed = true
    ∧ (destroy st).1.targets = (if st.destroyed then st.targets else none) := by
  refine ⟨?_, destroy_destroyed st, ?_⟩
  · have hd : (destroy st).1.destroyed = true := destroy_destroyed st
    revert hd
    generalize (destroy st).1 = s1
    intro hd
    unfold destroy
    rw [if_pos hd]
  · by_cases h : st.destroyed = true
    · simp [destroy, h]
    · simp [destroy, h]

/-- `parseTarget` never lowers the fresh-sink counter, and any target it
marks privately owned carries a counter-allocated sink identity. -/
theorem parseTarget_spec (t : RawTarget) (n : Nat) (v : Target) (fid : Nat)
    (h : parseTarget t n = Except.ok (v, fid)) :
    n ≤ fid ∧ (v.priv = true → v.sinkId = n ∧ fid = n + 1) := by
  unfold parseTarget at h
  split at h
  · cases hb : baseTargetOptions t.opts with
    | error e =>
      rw [hb] at h
      exact Except.noConfusion h
    | ok b =>
      rw [hb] at h
      injection h with h
      injection h with h1 h2
      subst h1
      subst h2
      exact ⟨Nat.le_succ n, fun _ => ⟨rfl, rfl⟩⟩
  · split at h
    · exact Except.noConfusion h
    · cases hb : baseTargetOptions t.opts with
      | error e =>
        rw [hb] at h
        exact Except.noConfusion h
      | ok b =>
        rw [hb] at h
        injection h with h
        injection h with h1 h2
        subst h1
        subst h2
        exact ⟨Nat.le_refl n, fun hp => absurd hp (by simp [mkTarget])⟩
  · cases hb : baseTargetOptions t.opts with
    | error e =>
      rw [hb] at h
      exact Except.noConfusion h
    | ok b =>
      rw [hb] at h
      injection h with h
      injection h with h1 h2
      subst h1
      subst h2
      exact ⟨Nat.le_refl n, fun hp => absurd hp (by simp [mkTarget])⟩
  · cases hb : baseTargetOptions t.opts with
    | error e =>
      rw [hb] at h
      exact Except.noConfusion h
    | ok b =>
      rw [hb] at h
      injection h with h
      injection h with h1 h2
      subst h1
      subst h2
      exact ⟨Nat.le_refl n, fun hp => absurd hp (by simp [mkTarget])⟩
  · split at h
    · exact Except.noConfusion h
    · cases hb : baseTargetOptions t.opts with
      | error e =>
        rw [hb] at h
        exact Except.noConfusion h
      | ok b =>
        rw [hb] at h
        injection h with h
        injection h with h1 h2
        subst h1
        subst h2
        exact ⟨Nat.le_refl n, fun hp => absurd hp (by simp [mkTarget])⟩
  · exact Except.noConfusion h

/-- A caller-supplied `STREAM` descriptor is normalized to a borrowed
(`private: false`) target on the caller's own sink, without consuming a
fresh identity. -/
theorem parseTarget_stream_borrowed (sid : Nat) (isWS : Bool) (opts : RawCommon)
    (n : Nat) (v : Target) (fid : Nat)
    (h : parseTarget ⟨RawKind.STREAM sid isWS, opts⟩ n = Except.ok (v, fid)) :
    v.priv = false ∧ v.sinkId = sid ∧ v.type = TType.STREAM ∧ fid = n := by
  unfold parseTarget at h
  simp only at h
  split at h
  · exact Except.noConfusion h
  · cases hb : baseTargetOptions opts with
    | error e =>
      rw [hb] at h
      exact Except.noConfusion h
    | ok b =>
      rw [hb] at h
      injection h with h
      injection h with h1 h2
      subst h1
      subst h2
      exact ⟨rfl, rfl, rfl, rfl⟩

/-- The normalization loop: the parsed list aligns index-wise with the
descriptor list, and every privately-owned sink identity is at least the
starting fresh counter. -/
theorem parseTargets_spec (raw : List RawTarget) (n : Nat) (ts : List Target)
    (h : parseTargets n raw = Except.ok ts) :
    (∀ (i : Nat) (r : RawTarget), raw[i]? = some r →
      ∃ (m : Nat) (v : Target) (fid : Nat), n ≤ m ∧ ts[i]? = some v
        ∧ parseTarget r m = Except.ok (v, fid))
    ∧ (∀ v ∈ ts, v.priv = true → n ≤ v.sinkId) := by
  induction raw generalizing n ts with
  | nil =>
    unfold parseTargets at h
    injection h with h
    subst h
    exact ⟨fun i r hr => absurd hr (by simp), by simp⟩
  | cons t rest ih =>
    unfold parseTargets at h
    cases hp : parseTarget t n with
    | error e =>
      rw [hp] at h
      exact Except.noConfusion h
    | ok pr =>
      rw [hp] at h
      replace h : Except.bind (parseTargets pr.2 rest)
          (fun r => Except.ok (pr.1 :: r)) = Except.ok ts := h
      cases hr : parseTargets pr.2 rest with
      | error e =>
        rw [hr] at h
        exact Except.noConfusion h
      | ok restTs =>
        rw [hr] at h
        replace h : Except.ok (pr.1 :: restTs) = Except.ok ts := h
        injection h with h
        subst h
        obtain ⟨hidx, hpriv⟩ := ih pr.2 restTs hr
        have hspec := parseTarget_spec t n pr.1 pr.2 (by rw [hp])
        constructor
        · intro i r hri
          cases i with
          | zero =>
            rw [List.getElem?_cons_zero] at hri
            injection hri with hri
            subst hri
            exact ⟨n, pr.1, pr.2, Nat.le_refl n, by simp, by rw [hp]⟩
          | succ j =>
            obtain ⟨m, v, fid, hm, hv, hpt⟩ := hidx j r (by simpa using hri)
            exact ⟨m, v, fid, Nat.le_trans hspec.1 hm, by simpa using hv, hpt⟩
        · intro v hv hpv
          rcases List.mem_cons.mp hv with h1 | h1
          · subst h1
            obtain ⟨hs, _⟩ := hspec.2 hpv
            rw [hs]
          · exact Nat.le_trans hspec.1 (hpriv v h1 hpv)

/-- `createLogger` never touches the factory's target list. -/
theorem createLogger_targets_eq (st : FactoryState) (c : String)
    (so : Option String) (col : ColorSpec) :
    (createLogger st c so col).1.targets = st.targets := by
  unfold createLogger
  split
  · rfl
  · split
    · rfl
    · split
      · dsimp only
        split
        · rfl
        · rfl
      · dsimp only
        split
        · rfl
        · rfl

/-- The target list after `destroy`: unchanged when the factory was
already destroyed (early return), cleared otherwise. -/
theorem destroy_targets (st : FactoryState) :
    (destroy st).1.targets = (if st.destroyed then st.targets else none) := by
  by_cases h : st.destroyed = true
  · simp [destroy, h]
  · simp [destroy, h]

/-- Whatever `destroy` releases is a privately-owned stream sink of the
state it was called on. -/
theorem destroy_released_sub (st : FactoryState) :
    ∀ sid ∈ (destroy st).2, sid ∈ privateStreamSinks (st.targets.getD []) := by
  intro sid hsid
  unfold destroy at hsid
  split at hsid
  · exact absurd hsid (by simp)
  · exact hsid

/-- Every sink released over any operation sequence is a privately-owned
stream sink of the starting state. -/
theorem runOps_released_sub (ops : List Op) :
    ∀ (st : FactoryState), ∀ sid ∈ (runOps st ops).2,
      sid ∈ privateStreamSinks (st.targets.getD []) := by
  induction ops with
  | nil =>
    intro st sid hsid
    exact absurd hsid (by simp [runOps])
  | cons op rest ih =>
    intro st sid hsid
    unfold runOps at hsid
    rcases List.mem_append.mp hsid with h | h
    · cases op with
      | opCreateLogger c so col => exact absurd h (by simp [step])
      | opLog lg ms lvl tN f => exact absurd h (by simp [step])
      | opDestroy => exact destroy_released_sub st sid h
    · have hrest := ih (step st op).1 sid h
      cases op with
      | opCreateLogger c so col =>
        rw [show (step st (Op.opCreateLogger c so col)).1
          = (createLogger st c so col).1 from rfl, createLogger_targets_eq] at hrest
        exact hrest
      | opLog lg ms lvl tN f => exact hrest
      | opDestroy =>
        rw [show (step st Op.opDestroy).1 = (destroy st).1 from rfl,
          destroy_targets] at hrest
        by_cases hd : st.destroyed = true
        · rw [if_pos hd] at hrest
          exact hrest
        · rw [if_neg hd] at hrest
          exact absurd hrest (by simp [privateStreamSinks])

/-- C8.  Sinks supplied via a `STREAM` descriptor are normalized as
borrowed (`private: false`, keeping the caller's sink identity) and are
never released by any sequence of factory operations, while
privately-owned sinks — those the factory allocated for `FILE`
descriptors, all with identities at or above the factory's fresh base —
are released exactly by `destroy()` and by no other operation: anything
any operation sequence ever releases is a privately-owned stream sink of
the freshly built factory. -/
theorem sink_ownership (freshBase : Nat) (raw : List RawTarget) (st0 : FactoryState)
    (hfac : createLoggerFactory freshBase raw = Except.ok st0) :
    (∀ (i sid : Nat) (isWS : Bool) (opts : RawCommon),
        raw[i]? = some ⟨RawKind.STREAM sid isWS, opts⟩ →
        ∃ v : Target, (st0.targets.getD [])[i]? = some v ∧ v.priv = false
          ∧ v.sinkId = sid)
    ∧ (∀ sid ∈ privateStreamSinks (st0.targets.getD []), freshBase ≤ sid)
    ∧ (destroy st0).2 = privateStreamSinks (st0.targets.getD [])
    ∧ (∀ ops : List Op, ∀ sid ∈ (runOps st0 ops).2,
        sid ∈ privateStreamSinks (st0.targets.getD []))
    ∧ (∀ (ops : List Op) (sid : Nat), sid < freshBase →
        sid ∉ (runOps st0 ops).2) := by
  unfold createLoggerFactory at hfac
  cases hp : parseTargets freshBase raw with
  | error e =>
    rw [hp] at hfac
    exact Except.noConfusion hfac
  | ok ts =>
    rw [hp] at hfac
    injection hfac with hfac
    subst hfac
    obtain ⟨hidx, hpriv⟩ := parseTargets_spec raw freshBase ts hp
    have hbase : ∀ sid ∈ privateStreamSinks ts, freshBase ≤ sid := by
      intro sid hsid
      unfold privateStreamSinks at hsid
      obtain ⟨v, hv, hvs⟩ := List.mem_map.mp hsid
      have hvts : v ∈ ts := List.mem_of_mem_filter hv
      have hvp : v.priv = true := by
        have := List.of_mem_filter hv
        simp only [Bool.and_eq_true, beq_iff_eq] at this
        exact this.2
      rw [← hvs]
      exact hpriv v hvts hvp
    refine ⟨?_, hbase, ?_, ?_, ?_⟩
    · intro i sid isWS opts hri
      obtain ⟨m, v, fid, hm, hv, hpt⟩ := hidx i ⟨RawKind.STREAM sid isWS, opts⟩ hri
      obtain ⟨h1, h2, _, _⟩ := parseTarget_stream_borrowed sid isWS opts m v fid hpt
      exact ⟨v, hv, h1, h2⟩
    · unfold destroy
      rw [if_neg (by simp)]
    · exact fun ops => runOps_released_sub ops _
    · intro ops sid hlt hmem
      have := hbase sid (runOps_released_sub ops _ sid hmem)
      omega

/-- Witness for C8 at a concrete input: a borrowed caller stream (sink 3)
next to a factory-opened file stream; the borrowed sink is normalized as
target 0, marked `private: false`, keeping identity 3. -/
theorem sink_ownership_witness :
    ∃ v : Target,
      (((createLoggerFactory 10 [rawStream3, rawFileT]).toOption.getD stInit
        ).targets.getD [])[0]? = some v ∧ v.priv = false ∧ v.sinkId = 3 :=
  (sink_ownership 10 [rawStream3, rawFileT]
    ((createLoggerFactory 10 [rawStream3, rawFileT]).toOption.getD stInit)
    (by rfl)).1 0 3 true rawDefault (by rfl)

/-- The minimum rank of a successfully normalized option record is the
result of `logLevelNum` on the raw `logLevel`. -/
theorem baseTargetOptions_level (t : RawCommon) (b : BaseOpts)
    (hok : baseTargetOptions t = Except.ok b) :
    logLevelNum t.logLevel = Except.ok b.level := by
  unfold baseTargetOptions at hok
  cases hl : logLevelNum t.logLevel with
  | error e =>
    rw [hl] at hok
    exact Except.noConfusion hok
  | ok lv =>
    rw [hl] at hok
    cases hst : logStyle t.style with
    | error e =>
      rw [hst] at hok
      exact Except.noConfusion hok
    | ok stl =>
      rw [hst] at hok
      cases hep : errorPolicy t.errorPolicy with
      | error e =>
        rw [hep] at hok
        exact Except.noConfusion hok
      | ok ep =>
        rw [hep] at hok
        injection hok with hok
        rw [← hok]

/-- A falsy raw `logLevel` value is never one of the six level-name
keys, so its lookup yields `undefined`. -/
theorem falsy_levelNums_none (v : JsVal) (hv : v.truthy = false) :
    levelNums v = none := by
  cases v with
  | vundef => rfl
  | vnull => rfl
  | vstr s =>
    have hs : s = "" := by
      simpa [JsVal.truthy] using hv
    subst hs
    rfl
  | vnum n => rfl
  | vbool b => rfl

/-- C9.  Target normalization accepts a falsy non-name `logLevel` (the
empty string, the number 0, the boolean false — and any other falsy
value) and silently defaults the minimum rank to `TRACE = 6` without
raising; only a truthy value outside the six level names raises the
`TypeError`.  Through `baseTargetOptions`, a falsy `logLevel` always
normalizes to minimum rank 6. -/
theorem falsy_loglevel_defaults_to_trace :
    logLevelNum (JsVal.vstr "") = Except.ok 6
    ∧ logLevelNum (JsVal.vnum 0) = Except.ok 6
    ∧ logLevelNum (JsVal.vbool false) = Except.ok 6
    ∧ (∀ v : JsVal, v.truthy = false → logLevelNum v = Except.ok 6)
    ∧ (∀ v : JsVal, v.truthy = true → levelNums v = none →
        logLevelNum v = Except.error (Err.typeError
          ("log level must be one of TRACE, DEBUG, INFO, WARN, ERROR, FATAL. Received "
            ++ v.display ++ " instead")))
    ∧ (∀ (t : RawCommon) (b : BaseOpts), t.logLevel.truthy = false →
        baseTargetOptions t = Except.ok b → b.level = 6) := by
  have hfalsy : ∀ v : JsVal, v.truthy = false → logLevelNum v = Except.ok 6 := by
    intro v hv
    have h0 := falsy_levelNums_none v hv
    simp [logLevelNum, hv, h0]
  refine ⟨by rfl, by rfl, by rfl, hfalsy, ?_, ?_⟩
  · intro v hv hn
    simp [logLevelNum, hv, hn]
  · intro t b hv hok
    have h6 : logLevelNum t.logLevel = Except.ok 6 := hfalsy _ hv
    have h7 := baseTargetOptions_level t b hok
    rw [h6] at h7
    injection h7 with h7
    exact h7.symm

/-- Witness for C9 at a concrete input: normalizing shared options whose
`logLevel` is the empty string yields minimum rank 6. -/
theorem falsy_loglevel_defaults_to_trace_witness :
    baseDefault.level = 6 :=
  falsy_loglevel_defaults_to_trace.2.2.2.2.2
    { rawDefault with logLevel := JsVal.vstr "" } baseDefault (by rfl) (by rfl)

/-- C10.  `createLogger` is atomic on failure: the destroyed check and
all colour validation precede the update of the running maximum name
length, so whenever the call throws, the returned factory state — which
the embedding threads through every statement up to the throw site — is
exactly the input state. -/
theorem createLogger_atomic_on_failure (st : FactoryState) (c : String)
    (so : Option String) (col : ColorSpec) (e : Err)
    (h : (createLogger st c so col).2 = Except.error e) :
    (createLogger st c so col).1 = st := by
  by_cases hd : st.destroyed = true
  · simp [createLogger, hd]
  · cases hc : resolveColor col with
    | error e2 => simp [createLogger, hd, hc]
    | ok ch => simp [createLogger, hd, hc] at h

/-- Witness for C10 at a concrete input: an out-of-range RGB triple
leaves the factory state unchanged. -/
theorem createLogger_atomic_on_failure_witness :
    (createLogger stInit "a" none (ColorSpec.carr [256, 0, 206])).1 = stInit :=
  createLogger_atomic_on_failure stInit "a" none (ColorSpec.carr [256, 0, 206])
    (Err.typeError
      "Expected sourceColor to be an array of 3 numbers between 0 and 255, but received 256,0,206 instead")
    (by rfl)

end EasyNodeLogging
